import Mathlib

/-!
Verification of the sync-response decoding pipeline and the to-device
message model of `nio` (files `nio/responses.py` and
`nio/event_builders/direct_messages.py`).

JSON payloads are modelled by the inductive `Nio.Json`; Python exceptions
by `Nio.PyErr` together with the `Except PyErr` monad; schema validation
(the `nio.schemas` module, which is not part of the verified sources and is
treated by the specification as an external collaborator) is modelled from
the specification's wire shapes as decidable boolean checks.
-/

namespace Nio

/-- A JSON value, as handed to the decoders after parsing.  Objects keep
their key/value pairs in insertion order, like Python dicts. -/
inductive Json where
  | null : Json
  | bool (b : Bool) : Json
  | num (n : Int) : Json
  | str (s : String) : Json
  | arr (xs : List Json) : Json
  | obj (kvs : List (String × Json)) : Json
deriving Repr

mutual
/-- Structural (Python `==`) equality on JSON values is decidable. -/
def Json.decEq : (a b : Json) → Decidable (a = b)
  | .null, .null => .isTrue rfl
  | .null, .bool _ => .isFalse (fun h => Json.noConfusion h)
  | .null, .num _ => .isFalse (fun h => Json.noConfusion h)
  | .null, .str _ => .isFalse (fun h => Json.noConfusion h)
  | .null, .arr _ => .isFalse (fun h => Json.noConfusion h)
  | .null, .obj _ => .isFalse (fun h => Json.noConfusion h)
  | .bool _, .null => .isFalse (fun h => Json.noConfusion h)
  | .bool a, .bool b =>
    if h : a = b then .isTrue (by rw [h]) else
      .isFalse (fun he => Json.noConfusion he (fun hb => h hb))
  | .bool _, .num _ => .isFalse (fun h => Json.noConfusion h)
  | .bool _, .str _ => .isFalse (fun h => Json.noConfusion h)
  | .bool _, .arr _ => .isFalse (fun h => Json.noConfusion h)
  | .bool _, .obj _ => .isFalse (fun h => Json.noConfusion h)
  | .num _, .null => .isFalse (fun h => Json.noConfusion h)
  | .num _, .bool _ => .isFalse (fun h => Json.noConfusion h)
  | .num a, .num b =>
    if h : a = b then .isTrue (by rw [h]) else
      .isFalse (fun he => Json.noConfusion he (fun hb => h hb))
  | .num _, .str _ => .isFalse (fun h => Json.noConfusion h)
  | .num _, .arr _ => .isFalse (fun h => Json.noConfusion h)
  | .num _, .obj _ => .isFalse (fun h => Json.noConfusion h)
  | .str _, .null => .isFalse (fun h => Json.noConfusion h)
  | .str _, .bool _ => .isFalse (fun h => Json.noConfusion h)
  | .str _, .num _ => .isFalse (fun h => Json.noConfusion h)
  | .str a, .str b =>
    if h : a = b then .isTrue (by rw [h]) else
      .isFalse (fun he => Json.noConfusion he (fun hb => h hb))
  | .str _, .arr _ => .isFalse (fun h => Json.noConfusion h)
  | .str _, .obj _ => .isFalse (fun h => Json.noConfusion h)
  | .arr _, .null => .isFalse (fun h => Json.noConfusion h)
  | .arr _, .bool _ => .isFalse (fun h => Json.noConfusion h)
  | .arr _, .num _ => .isFalse (fun h => Json.noConfusion h)
  | .arr _, .str _ => .isFalse (fun h => Json.noConfusion h)
  | .arr xs, .arr ys =>
    match Json.decEqList xs ys with
    | .isTrue h => .isTrue (by rw [h])
    | .isFalse h => .isFalse (fun he => Json.noConfusion he (fun hb => h hb))
  | .arr _, .obj _ => .isFalse (fun h => Json.noConfusion h)
  | .obj _, .null => .isFalse (fun h => Json.noConfusion h)
  | .obj _, .bool _ => .isFalse (fun h => Json.noConfusion h)
  | .obj _, .num _ => .isFalse (fun h => Json.noConfusion h)
  | .obj _, .str _ => .isFalse (fun h => Json.noConfusion h)
  | .obj _, .arr _ => .isFalse (fun h => Json.noConfusion h)
  | .obj kvs1, .obj kvs2 =>
    match Json.decEqKvs kvs1 kvs2 with
    | .isTrue h => .isTrue (by rw [h])
    | .isFalse h => .isFalse (fun he => Json.noConfusion he (fun hb => h hb))

/-- Decidable equality of JSON arrays. -/
def Json.decEqList : (xs ys : List Json) → Decidable (xs = ys)
  | [], [] => .isTrue rfl
  | [], _ :: _ => .isFalse (fun h => List.noConfusion h)
  | _ :: _, [] => .isFalse (fun h => List.noConfusion h)
  | x :: xs, y :: ys =>
    match Json.decEq x y with
    | .isFalse h =>
      .isFalse (fun he => List.noConfusion he (fun h1 _ => h h1))
    | .isTrue h1 =>
      match Json.decEqList xs ys with
      | .isTrue h2 => .isTrue (by rw [h1, h2])
      | .isFalse h =>
        .isFalse (fun he => List.noConfusion he (fun _ h2 => h h2))

/-- Decidable equality of JSON object entry lists. -/
def Json.decEqKvs : (xs ys : List (String × Json)) → Decidable (xs = ys)
  | [], [] => .isTrue rfl
  | [], _ :: _ => .isFalse (fun h => List.noConfusion h)
  | _ :: _, [] => .isFalse (fun h => List.noConfusion h)
  | (k1, v1) :: xs, (k2, v2) :: ys =>
    if hk : k1 = k2 then
      match Json.decEq v1 v2 with
      | .isFalse h =>
        .isFalse (fun he => by
          injection he with h1 h2
          exact h (congrArg Prod.snd h1))
      | .isTrue h1 =>
        match Json.decEqKvs xs ys with
        | .isTrue h2 => .isTrue (by rw [hk, h1, h2])
        | .isFalse h =>
          .isFalse (fun he => by
            injection he with h1 h2
            exact h h2)
    else
      .isFalse (fun he => by
        injection he with h1 h2
        exact hk (congrArg Prod.fst h1))
end

instance : DecidableEq Json := Json.decEq

/-- First-match association-list lookup, the semantics of `d[key]` /
`key in d` on a Python dict with unique keys. -/
def jlookup : List (String × Json) → String → Option Json
  | [], _ => none
  | (k, v) :: rest, key => if k = key then some v else jlookup rest key

/-- `d.lookup? k`: the value under key `k` when `d` is an object holding
that key. -/
def Json.lookup? : Json → String → Option Json
  | .obj kvs, k => jlookup kvs k
  | _, _ => none

/-- Python `k in d` on an object (`False` on the non-container values the
decoders never reach with `in`). -/
def Json.hasKey (d : Json) (k : String) : Bool :=
  (d.lookup? k).isSome

/-- The Python exceptions that can cross function boundaries in this code:
`jsonschema` validation failures, and the built-in exceptions raised by
subscripting, iterating or calling methods on values of the wrong shape. -/
inductive PyErr where
  | validationError : PyErr
  | schemaError : PyErr
  | keyError : PyErr
  | typeError : PyErr
  | attributeError : PyErr
deriving DecidableEq, Repr

/-- Python `d[k]`: the value under `k`, or a raised `KeyError`
(a `TypeError` when `d` is not subscriptable by a string key). -/
def Json.getItem (d : Json) (k : String) : Except PyErr Json :=
  match d with
  | .obj kvs =>
    match jlookup kvs k with
    | some v => .ok v
    | none => .error .keyError
  | _ => .error .typeError

/-- Python iteration `for x in d`: the elements of a list, the keys of a
dict, the one-character strings of a string; other values raise
`TypeError`. -/
def Json.iterList : Json → Except PyErr (List Json)
  | .arr xs => .ok xs
  | .obj kvs => .ok (kvs.map (fun kv => Json.str kv.1))
  | .str s => .ok (s.data.map (fun c => Json.str c.toString))
  | _ => .error .typeError

/-- Python `d.items()`: the key/value pairs of a dict; any other value
raises `AttributeError`.  (`d.keys()` raises on exactly the same inputs,
so the dict-comprehension initialisation of `_get_room_info` is absorbed
into this call.) -/
def Json.items : Json → Except PyErr (List (String × Json))
  | .obj kvs => .ok kvs
  | _ => .error .attributeError

mutual
/-- Modelled from the spec: `Api.to_json` (module `nio.api`, not among the
verified sources) serialises a payload; `BadEvent.source` keeps "the
original payload, serialized, preserved verbatim for diagnostics". -/
def Json.render : Json → String
  | .null => "null"
  | .bool true => "true"
  | .bool false => "false"
  | .num n => toString n
  | .str s => "\x22" ++ s ++ "\x22"
  | .arr xs => "[" ++ renderArr xs ++ "]"
  | .obj kvs => "\x7b" ++ renderObj kvs ++ "\x7d"

def renderArr : List Json → String
  | [] => ""
  | [x] => Json.render x
  | x :: rest => Json.render x ++ ", " ++ renderArr rest

def renderObj : List (String × Json) → String
  | [] => ""
  | [(k, v)] => "\x22" ++ k ++ "\x22: " ++ Json.render v
  | (k, v) :: rest => "\x22" ++ k ++ "\x22: " ++ Json.render v ++ ", " ++ renderObj rest
end

/-- Modelled from the spec: `Api.to_json` of module `nio.api`. -/
def Api.to_json (d : Json) : String := Json.render d

/-! ### Schemas

The `nio.schemas` module is not among the verified sources; the spec
treats the Schema Validator as an external collaborator and fixes the wire
shapes each named schema guards ("sync payload with `next_batch`,
`rooms.join.<room_id>.timeline.{events[], limited, prev_batch}`; each
event has `event_id`, `sender`, `origin_server_ts`, `type`, `content`,
optional `unsigned.redacted_because.{sender, content.reason}`"), noting
that "presence/absence of required fields is load-bearing for every
fallback decision".  Each check below is modelled from those words. -/

/-- Is the optional value a JSON string? -/
def isStrVal : Option Json → Bool
  | some (.str _) => true
  | _ => false

/-- Is the optional value a JSON integer? -/
def isNumVal : Option Json → Bool
  | some (.num _) => true
  | _ => false

/-- Is the optional value a JSON boolean? -/
def isBoolVal : Option Json → Bool
  | some (.bool _) => true
  | _ => false

/-- Is the optional value a JSON object? -/
def isObjVal : Option Json → Bool
  | some (.obj _) => true
  | _ => false

/-- Is the optional value a JSON array? -/
def isArrVal : Option Json → Bool
  | some (.arr _) => true
  | _ => false

/-- The entry list of an optional JSON value that is an object. -/
def objEntries? : Option Json → Option (List (String × Json))
  | some (.obj kvs) => some kvs
  | _ => none

/-- Modelled from the spec: the generic room-event schema
(`Schemas.room_event`).  Every event carries `event_id`, `sender`,
`origin_server_ts`, `type` and `content`, with `unsigned` an object when
present. -/
def checkRoomEvent (d : Json) : Bool :=
  isStrVal (d.lookup? "event_id") &&
  isStrVal (d.lookup? "sender") &&
  isNumVal (d.lookup? "origin_server_ts") &&
  isStrVal (d.lookup? "type") &&
  isObjVal (d.lookup? "content") &&
  (!(d.hasKey "unsigned") || isObjVal (d.lookup? "unsigned"))

/-- Modelled from the spec: the redacted-event schema
(`Schemas.redacted_event`): the generic event fields plus
`unsigned.redacted_because` with a `sender` string and a `content`
object (whose `reason` stays optional). -/
def checkRedactedEvent (d : Json) : Bool :=
  isStrVal (d.lookup? "event_id") &&
  isStrVal (d.lookup? "sender") &&
  isNumVal (d.lookup? "origin_server_ts") &&
  isStrVal (d.lookup? "type") &&
  (d.lookup? "unsigned").elim false (fun u =>
    (u.lookup? "redacted_because").elim false (fun rb =>
      isStrVal (rb.lookup? "sender") && isObjVal (rb.lookup? "content")))

/-- Modelled from the spec: the room-message schema
(`Schemas.room_message`): the generic event fields plus a `content`
object carrying a `msgtype` string. -/
def checkRoomMessage (d : Json) : Bool :=
  isStrVal (d.lookup? "event_id") &&
  isStrVal (d.lookup? "sender") &&
  isNumVal (d.lookup? "origin_server_ts") &&
  isStrVal (d.lookup? "type") &&
  (d.lookup? "content").elim false (fun c => isStrVal (c.lookup? "msgtype"))

/-- Modelled from the spec: the text-message schema
(`Schemas.room_message_text`): the room-message shape plus a `body`
string in `content`; `formatted_body` and `format` stay optional. -/
def checkRoomMessageText (d : Json) : Bool :=
  isStrVal (d.lookup? "event_id") &&
  isStrVal (d.lookup? "sender") &&
  isNumVal (d.lookup? "origin_server_ts") &&
  isStrVal (d.lookup? "type") &&
  (d.lookup? "content").elim false (fun c =>
    isStrVal (c.lookup? "msgtype") && isStrVal (c.lookup? "body"))

/-- Modelled from the spec: the room-timeline schema
(`Schemas.room_timeline`): `events` an array, `limited` a boolean,
`prev_batch` a string. -/
def checkRoomTimeline (d : Json) : Bool :=
  isArrVal (d.lookup? "events") &&
  isBoolVal (d.lookup? "limited") &&
  isStrVal (d.lookup? "prev_batch")

/-- Modelled from the spec: the top-level sync schema (`Schemas.sync`):
`next_batch` a string and a `rooms` object whose `join` member maps each
room id to an object carrying a `timeline` key (the spec's wire shape
`rooms.join.<room_id>.timeline.{...}`; the decoder "never raises", so
the schema must guarantee each access on this spine). -/
def checkSync (d : Json) : Bool :=
  isStrVal (d.lookup? "next_batch") &&
  (d.lookup? "rooms").elim false (fun rooms =>
    (objEntries? (rooms.lookup? "join")).elim false (fun joinKvs =>
      joinKvs.all (fun kv => kv.2.hasKey "timeline")))

/-- Modelled from the spec: the generic error schema (`Schemas.error`):
`error` and `errcode` strings. -/
def checkError (d : Json) : Bool :=
  isStrVal (d.lookup? "error") && isStrVal (d.lookup? "errcode")

/-- `validate_json(parsed_dict, schema)` from `nio.schemas`: succeed, or
raise a `ValidationError`. -/
def validate_json (d : Json) (check : Json → Bool) : Except PyErr Unit :=
  if check d then .ok () else .error .validationError

/-- The `try ... except (SchemaError, ValidationError)` pattern every
decoder uses: validation failures run the handler, anything else
propagates. -/
def tryValidation {α : Type} (body : Except PyErr α) (handler : Except PyErr α) :
    Except PyErr α :=
  match body with
  | .ok a => .ok a
  | .error .validationError => handler
  | .error .schemaError => handler
  | .error e => .error e

/-! ### Event and response model (`nio/responses.py`)

Python stores whatever value the payload held in each attribute, so the
event fields are typed `Json` (after schema validation they are strings
and integers, but the model does not assume that). -/

/-- `BadEvent`: an event whose decoding failed; keeps the raw `type` and
the serialised payload. -/
structure BadEvent where
  event_id : Json
  sender : Json
  server_timestamp : Json
  type : Json
  source : String
deriving DecidableEq, Repr

/-- A decoded timeline event: `BadEvent`, `RedactedEvent` or
`RoomMessageText` (`Event`'s concrete variants in `responses.py`). -/
inductive Event where
  | badEvent (b : BadEvent)
  | redactedEvent (event_id sender server_timestamp event_type redacter : Json)
      (reason : Option Json)
  | roomMessageText (event_id sender server_timestamp body : Json)
      (formatted_body format : Option Json)
deriving DecidableEq, Repr

/-- `Timeline` named tuple.  `RoomMessage.from_dict` can return Python
`None`, and `_get_room_events` appends its result unconditionally, so a
timeline slot holds `Option Event` with `none` standing for `None`. -/
structure Timeline where
  events : List (Option Event)
  limited : Json
  prev_batch : Json
deriving DecidableEq, Repr

/-- `JoindedInfo` named tuple (source spelling): a room's timeline plus
the (always empty) state list. -/
structure JoindedInfo where
  timeline : Timeline
  state : List Json
deriving DecidableEq, Repr

/-- `RoomInfo` named tuple: invite/join/leave partitions.  `invite` and
`leave` are always built empty. -/
structure RoomInfo where
  invite : List (String × Json)
  join : List (String × JoindedInfo)
  leave : List (String × Json)
deriving DecidableEq, Repr

/-- `ErrorResponse`: message and code (`code` defaults to `""`). -/
structure ErrorResponse where
  message : Json
  code : Json
deriving DecidableEq, Repr

/-- A top-level response as produced by `SyncRepsponse.from_dict`: a sync
response (`next_batch`, rooms, the always-false `partial` flag) or an
error response. -/
inductive Response where
  | syncResponse (next_batch : Json) (rooms : RoomInfo) (partialFlag : Bool)
  | errorResponse (e : ErrorResponse)
deriving DecidableEq, Repr

/-! ### Decoders (`nio/responses.py`) -/

/-- `BadEvent.from_dict`: subscripts the payload directly (it is only
reached after the generic room-event schema has validated, which is what
makes these accesses safe). -/
def BadEvent.from_dict (d : Json) : Except PyErr BadEvent := do
  let eid ← d.getItem "event_id"
  let snd ← d.getItem "sender"
  let ts ← d.getItem "origin_server_ts"
  let ty ← d.getItem "type"
  pure ⟨eid, snd, ts, ty, Api.to_json d⟩

/-- `RedactedEvent.from_dict`: validate against the redacted-event
schema, falling back to `BadEvent` on validation failure; then extract
`redacter` from `unsigned.redacted_because.sender` and the optional
`reason` from `unsigned.redacted_because.content`. -/
def RedactedEvent.from_dict (d : Json) : Except PyErr Event :=
  match validate_json d checkRedactedEvent with
  | .error .validationError => (BadEvent.from_dict d).map Event.badEvent
  | .error .schemaError => (BadEvent.from_dict d).map Event.badEvent
  | .error e => .error e
  | .ok _ => do
    let u1 ← d.getItem "unsigned"
    let rb1 ← u1.getItem "redacted_because"
    let redacter ← rb1.getItem "sender"
    let u2 ← d.getItem "unsigned"
    let rb2 ← u2.getItem "redacted_because"
    let content_dict ← rb2.getItem "content"
    let reason : Option Json :=
      if content_dict.hasKey "reason" then content_dict.lookup? "reason" else none
    let eid ← d.getItem "event_id"
    let snd ← d.getItem "sender"
    let ts ← d.getItem "origin_server_ts"
    let ty ← d.getItem "type"
    pure (.redactedEvent eid snd ts ty redacter reason)

/-- `RoomMessageText.from_dict`: validate against the text-message
schema, falling back to `BadEvent`; `formatted_body` and `format` default
to `None` when the keys are absent from `content`. -/
def RoomMessageText.from_dict (d : Json) : Except PyErr Event :=
  match validate_json d checkRoomMessageText with
  | .error .validationError => (BadEvent.from_dict d).map Event.badEvent
  | .error .schemaError => (BadEvent.from_dict d).map Event.badEvent
  | .error e => .error e
  | .ok _ => do
    let content ← d.getItem "content"
    let body ← content.getItem "body"
    let formatted_body : Option Json :=
      if content.hasKey "formatted_body" then content.lookup? "formatted_body" else none
    let body_format : Option Json :=
      if content.hasKey "format" then content.lookup? "format" else none
    let eid ← d.getItem "event_id"
    let snd ← d.getItem "sender"
    let ts ← d.getItem "origin_server_ts"
    pure (.roomMessageText eid snd ts body formatted_body body_format)

/-- `RoomMessage.from_dict`: validate against the room-message schema,
falling back to `BadEvent`; dispatch on `content["msgtype"]`; any
`msgtype` other than `"m.text"` hits the `TODO` branch and returns
Python `None` (modelled by `none`). -/
def RoomMessage.from_dict (d : Json) (olm : Option Unit) :
    Except PyErr (Option Event) :=
  match validate_json d checkRoomMessage with
  | .error .validationError => (BadEvent.from_dict d).map (fun b => some (Event.badEvent b))
  | .error .schemaError => (BadEvent.from_dict d).map (fun b => some (Event.badEvent b))
  | .error e => .error e
  | .ok _ => do
    let content_dict ← d.getItem "content"
    let msgtype ← content_dict.getItem "msgtype"
    if msgtype = Json.str "m.text" then
      (RoomMessageText.from_dict d).map some
    else
      pure none

/-- `ErrorResponse.from_dict`: validate against the error schema; on
failure the placeholder `ErrorResponse("Unknown error")` (with the
default empty code); on success the payload's `error`/`errcode`. -/
def ErrorResponse.from_dict (d : Json) : Except PyErr ErrorResponse :=
  match validate_json d checkError with
  | .error .validationError => .ok ⟨.str "Unknown error", .str ""⟩
  | .error .schemaError => .ok ⟨.str "Unknown error", .str ""⟩
  | .error e => .error e
  | .ok _ => do
    let msg ← d.getItem "error"
    let code ← d.getItem "errcode"
    pure ⟨msg, code⟩

/-- The guard `"unsigned" in event_dict and "redacted_because" in
event_dict["unsigned"]` from `_get_room_events` (two nested `if`s in the
source; the inner subscript only runs when the key is present). -/
def hasRedactedBecause (d : Json) : Bool :=
  match d.lookup? "unsigned" with
  | some u => u.hasKey "redacted_because"
  | none => false

/-- The body of the `try` block run for one element of the raw event
array in `SyncRepsponse._get_room_events`: validate the generic
room-event schema, prefer the redaction path, else dispatch on `type`;
the returned list holds what this iteration appends to `events` (zero or
one entries; an entry can be Python `None`). -/
def SyncRepsponse.decode_event_dict (event_dict : Json) (olm : Option Unit) :
    Except PyErr (List (Option Event)) := do
  let _ ← validate_json event_dict checkRoomEvent
  if hasRedactedBecause event_dict then do
    let e ← RedactedEvent.from_dict event_dict
    pure [some e]
  else do
    let ty ← event_dict.getItem "type"
    if ty = Json.str "m.room.message" then do
      let me ← RoomMessage.from_dict event_dict olm
      pure [me]
    else
      pure []

/-- One iteration of the loop in `_get_room_events`: the `try` body with
its `except (SchemaError, ValidationError): print(e); pass` handler,
which appends nothing for that event. -/
def SyncRepsponse.event_step (event_dict : Json) (olm : Option Unit) :
    Except PyErr (List (Option Event)) :=
  tryValidation (SyncRepsponse.decode_event_dict event_dict olm) (.ok [])

/-- The `for event_dict in parsed_dict` loop of `_get_room_events`,
accumulating `events` in order. -/
def SyncRepsponse.events_loop (olm : Option Unit) :
    List Json → Except PyErr (List (Option Event))
  | [] => .ok []
  | d :: rest => do
    let l ← SyncRepsponse.event_step d olm
    let ls ← SyncRepsponse.events_loop olm rest
    pure (l ++ ls)

/-- `SyncRepsponse._get_room_events` (the Lean name drops the leading
underscore).  `max_events` is accepted and never read, as in the
source. -/
def SyncRepsponse.get_room_events (parsed_dict : Json) (max_events : Int)
    (olm : Option Unit) : Except PyErr (List (Option Event)) := do
  let xs ← parsed_dict.iterList
  SyncRepsponse.events_loop olm xs

/-- `SyncRepsponse._get_timeline`: validate the room-timeline schema
(failures propagate to the caller), then decode the event array and carry
`limited` and `prev_batch` through verbatim. -/
def SyncRepsponse.get_timeline (parsed_dict : Json) (max_events : Int)
    (olm : Option Unit) : Except PyErr Timeline := do
  let _ ← validate_json parsed_dict checkRoomTimeline
  let eventsJson ← parsed_dict.getItem "events"
  let events ← SyncRepsponse.get_room_events eventsJson max_events olm
  let limited ← parsed_dict.getItem "limited"
  let prev ← parsed_dict.getItem "prev_batch"
  pure ⟨events, limited, prev⟩

/-- The `for room_id, room_dict in parsed_dict["join"].items()` loop of
`_get_room_info`.  The source calls `_get_timeline(room_dict["timeline"])`
with its defaults, i.e. `max_events=0, olm=None`. -/
def SyncRepsponse.rooms_loop :
    List (String × Json) → Except PyErr (List (String × JoindedInfo))
  | [] => .ok []
  | (room_id, room_dict) :: rest => do
    let tlJson ← room_dict.getItem "timeline"
    let timeline ← SyncRepsponse.get_timeline tlJson 0 none
    let restInfos ← SyncRepsponse.rooms_loop rest
    pure ((room_id, ⟨timeline, []⟩) :: restInfos)

/-- `SyncRepsponse._get_room_info`: decode each joined room's timeline
(the dict-comprehension that pre-fills `joined_rooms` with `None` is
observationally absorbed into the loop, since every key is overwritten
and `.keys()`/`.items()` raise on exactly the same inputs); `invite` and
`leave` are returned empty.  `max_events` and `olm` are accepted and
never read. -/
def SyncRepsponse.get_room_info (parsed_dict : Json) (max_events : Int)
    (olm : Option Unit) : Except PyErr RoomInfo := do
  let join ← parsed_dict.getItem "join"
  let entries ← join.items
  let joined ← SyncRepsponse.rooms_loop entries
  pure ⟨[], joined, []⟩

/-- `SyncRepsponse.from_dict`: validate the sync schema and decode the
rooms inside a `try` whose `except (SchemaError, ValidationError)`
degrades to `ErrorResponse.from_dict(parsed_dict)`; on success build the
response with `partial = False`. -/
def SyncRepsponse.from_dict (parsed_dict : Json) (max_events : Int)
    (olm : Option Unit) : Except PyErr Response :=
  match (do
      let _ ← validate_json parsed_dict checkSync
      let roomsJson ← parsed_dict.getItem "rooms"
      SyncRepsponse.get_room_info roomsJson max_events olm
    : Except PyErr RoomInfo) with
  | .ok rooms => do
    let nb ← parsed_dict.getItem "next_batch"
    pure (.syncResponse nb rooms false)
  | .error .validationError =>
    (ErrorResponse.from_dict parsed_dict).map Response.errorResponse
  | .error .schemaError =>
    (ErrorResponse.from_dict parsed_dict).map Response.errorResponse
  | .error e => .error e

/-! ### To-device messages (`nio/event_builders/direct_messages.py`) -/

/-- `ToDeviceMessage`: type, recipient, recipient device and opaque
content. -/
structure ToDeviceMessage where
  type : String
  recipient : String
  recipient_device : String
  content : Json
deriving DecidableEq, Repr

/-- `ToDeviceMessage.as_dict`: the wire envelope
`{"messages": {recipient: {recipient_device: content}}}`. -/
def ToDeviceMessage.as_dict (m : ToDeviceMessage) : Json :=
  .obj [("messages", .obj [(m.recipient, .obj [(m.recipient_device, m.content)])])]

/-- `DummyMessage`: a `ToDeviceMessage` subclass adding nothing. -/
structure DummyMessage extends ToDeviceMessage
deriving DecidableEq, Repr

/-- `DummyMessage` inherits `as_dict` unchanged. -/
def DummyMessage.as_dict (m : DummyMessage) : Json :=
  m.toToDeviceMessage.as_dict

/-- `RoomKeyRequestMessage`: adds the key-request fields; `as_dict` is
inherited and does not consult them. -/
structure RoomKeyRequestMessage extends ToDeviceMessage where
  request_id : String
  session_id : String
  room_id : String
  algorithm : String
deriving DecidableEq, Repr

/-- `RoomKeyRequestMessage` inherits `as_dict` unchanged. -/
def RoomKeyRequestMessage.as_dict (m : RoomKeyRequestMessage) : Json :=
  m.toToDeviceMessage.as_dict

/-! ### Concrete payloads used as test vectors -/

/-- The spec's concrete text-message payload: `event_id="$1"`,
`sender="@a:x"`, `origin_server_ts=100`, `type="m.room.message"`,
`content={"msgtype":"m.text","body":"hi"}`. -/
def textEventDict : Json := .obj [
  ("event_id", .str "$1"), ("sender", .str "@a:x"),
  ("origin_server_ts", .num 100), ("type", .str "m.room.message"),
  ("content", .obj [("msgtype", .str "m.text"), ("body", .str "hi")])]

/-- A second well-formed text-message payload. -/
def textEventDict2 : Json := .obj [
  ("event_id", .str "$2"), ("sender", .str "@b:x"),
  ("origin_server_ts", .num 200), ("type", .str "m.room.message"),
  ("content", .obj [("msgtype", .str "m.text"), ("body", .str "yo")])]

/-- The spec's text payload with `content.msgtype="m.notice"` instead. -/
def noticeEventDict : Json := .obj [
  ("event_id", .str "$1"), ("sender", .str "@a:x"),
  ("origin_server_ts", .num 100), ("type", .str "m.room.message"),
  ("content", .obj [("msgtype", .str "m.notice"), ("body", .str "hi")])]

/-- A payload missing `sender`, failing the generic room-event schema. -/
def noSenderEventDict : Json := .obj [
  ("event_id", .str "$3"),
  ("origin_server_ts", .num 100), ("type", .str "m.room.message"),
  ("content", .obj [("msgtype", .str "m.text"), ("body", .str "hi")])]

/-- A well-formed redacted event: `unsigned.redacted_because` with a
redacting sender and a reason. -/
def redactedEventDict : Json := .obj [
  ("event_id", .str "$4"), ("sender", .str "@a:x"),
  ("origin_server_ts", .num 100), ("type", .str "m.room.message"),
  ("content", .obj [("msgtype", .str "m.text"), ("body", .str "hi")]),
  ("unsigned", .obj [("redacted_because", .obj [
     ("sender", .str "@mod:x"),
     ("content", .obj [("reason", .str "spam")])])])]

/-- A sync payload whose `rooms` container is missing the `join` key. -/
def noJoinSyncDict : Json := .obj [
  ("next_batch", .str "t123"), ("rooms", .obj [("invite", .obj [])])]

/-- A payload that does not match the generic error schema. -/
def unknownErrorDict : Json := .obj [("flows", .arr [])]

/-- A payload matching the generic error schema. -/
def knownErrorDict : Json := .obj [
  ("error", .str "Invalid request"), ("errcode", .str "M_UNKNOWN")]

/-! ### Basic reduction lemmas -/

@[simp] theorem exc_bind_ok {α β : Type} (a : α) (f : α → Except PyErr β) :
    (Except.ok a >>= f) = f a := rfl

@[simp] theorem exc_bind_err {α β : Type} (e : PyErr) (f : α → Except PyErr β) :
    ((Except.error e : Except PyErr α) >>= f) = .error e := rfl

@[simp] theorem exc_pure {α : Type} (a : α) :
    (pure a : Except PyErr α) = .ok a := rfl

@[simp] theorem exc_map_ok {α β : Type} (f : α → β) (a : α) :
    ((Except.ok a : Except PyErr α).map f) = .ok (f a) := rfl

@[simp] theorem exc_map_err {α β : Type} (f : α → β) (e : PyErr) :
    ((Except.error e : Except PyErr α).map f) = .error e := rfl

@[simp] theorem validate_json_pass {d : Json} {c : Json → Bool} (h : c d = true) :
    validate_json d c = .ok () := by simp [validate_json, h]

@[simp] theorem validate_json_fail {d : Json} {c : Json → Bool} (h : c d = false) :
    validate_json d c = .error .validationError := by simp [validate_json, h]

theorem Json.getItem_eq_ok {d : Json} {k : String} {v : Json}
    (h : d.lookup? k = some v) : d.getItem k = .ok v := by
  cases d <;> simp [Json.lookup?] at h
  simp [Json.getItem, h]

theorem isStrVal_iff {o : Option Json} : isStrVal o = true ↔ ∃ s, o = some (.str s) := by
  cases o with
  | none => simp [isStrVal]
  | some j => cases j <;> simp [isStrVal]

theorem isNumVal_iff {o : Option Json} : isNumVal o = true ↔ ∃ n, o = some (.num n) := by
  cases o with
  | none => simp [isNumVal]
  | some j => cases j <;> simp [isNumVal]

theorem isBoolVal_iff {o : Option Json} : isBoolVal o = true ↔ ∃ b, o = some (.bool b) := by
  cases o with
  | none => simp [isBoolVal]
  | some j => cases j <;> simp [isBoolVal]

theorem isObjVal_iff {o : Option Json} : isObjVal o = true ↔ ∃ kvs, o = some (.obj kvs) := by
  cases o with
  | none => simp [isObjVal]
  | some j => cases j <;> simp [isObjVal]

theorem isArrVal_iff {o : Option Json} : isArrVal o = true ↔ ∃ xs, o = some (.arr xs) := by
  cases o with
  | none => simp [isArrVal]
  | some j => cases j <;> simp [isArrVal]

/-! ### The base event fields -/

/-- The four base fields shared by all the event schemas. -/
def baseFields (d : Json) : Bool :=
  isStrVal (d.lookup? "event_id") &&
  isStrVal (d.lookup? "sender") &&
  isNumVal (d.lookup? "origin_server_ts") &&
  isStrVal (d.lookup? "type")

theorem checkRoomEvent_base {d : Json} (h : checkRoomEvent d = true) :
    baseFields d = true := by
  unfold checkRoomEvent at h
  simp only [Bool.and_eq_true] at h
  obtain ⟨⟨⟨⟨⟨h1, h2⟩, h3⟩, h4⟩, _⟩, _⟩ := h
  unfold baseFields
  simp only [Bool.and_eq_true]
  exact ⟨⟨⟨h1, h2⟩, h3⟩, h4⟩

theorem checkRedactedEvent_base {d : Json} (h : checkRedactedEvent d = true) :
    baseFields d = true := by
  unfold checkRedactedEvent at h
  simp only [Bool.and_eq_true] at h
  obtain ⟨⟨⟨⟨h1, h2⟩, h3⟩, h4⟩, _⟩ := h
  unfold baseFields
  simp only [Bool.and_eq_true]
  exact ⟨⟨⟨h1, h2⟩, h3⟩, h4⟩

theorem checkRoomMessage_base {d : Json} (h : checkRoomMessage d = true) :
    baseFields d = true := by
  unfold checkRoomMessage at h
  simp only [Bool.and_eq_true] at h
  obtain ⟨⟨⟨⟨h1, h2⟩, h3⟩, h4⟩, _⟩ := h
  unfold baseFields
  simp only [Bool.and_eq_true]
  exact ⟨⟨⟨h1, h2⟩, h3⟩, h4⟩

theorem checkRoomMessageText_base {d : Json} (h : checkRoomMessageText d = true) :
    baseFields d = true := by
  unfold checkRoomMessageText at h
  simp only [Bool.and_eq_true] at h
  obtain ⟨⟨⟨⟨h1, h2⟩, h3⟩, h4⟩, _⟩ := h
  unfold baseFields
  simp only [Bool.and_eq_true]
  exact ⟨⟨⟨h1, h2⟩, h3⟩, h4⟩

/-- Under the base fields, `BadEvent.from_dict` succeeds and returns the
raw field values together with the serialised payload. -/
theorem BadEvent.from_dict_ok {d : Json} (h : baseFields d = true) :
    ∃ e s t ty, d.lookup? "event_id" = some e ∧ d.lookup? "sender" = some s ∧
      d.lookup? "origin_server_ts" = some t ∧ d.lookup? "type" = some ty ∧
      BadEvent.from_dict d = .ok ⟨e, s, t, ty, Api.to_json d⟩ := by
  unfold baseFields at h
  simp only [Bool.and_eq_true] at h
  obtain ⟨⟨⟨h1, h2⟩, h3⟩, h4⟩ := h
  obtain ⟨e, he⟩ := isStrVal_iff.mp h1
  obtain ⟨s, hs⟩ := isStrVal_iff.mp h2
  obtain ⟨t, ht⟩ := isNumVal_iff.mp h3
  obtain ⟨ty, hty⟩ := isStrVal_iff.mp h4
  refine ⟨_, _, _, _, he, hs, ht, hty, ?_⟩
  simp [BadEvent.from_dict, Json.getItem_eq_ok he, Json.getItem_eq_ok hs,
    Json.getItem_eq_ok ht, Json.getItem_eq_ok hty]

/-- `BadEvent.from_dict` succeeds whenever the base fields are present
(weak form). -/
theorem badEvent_from_dict_isOk {d : Json} (h : baseFields d = true) :
    ∃ b, BadEvent.from_dict d = .ok b := by
  obtain ⟨e, s, t, ty, _, _, _, _, hb⟩ := BadEvent.from_dict_ok h
  exact ⟨_, hb⟩

/-- `RedactedEvent.from_dict` never raises once the base fields are
present. -/
theorem redactedEvent_from_dict_isOk {d : Json} (h : baseFields d = true) :
    ∃ ev, RedactedEvent.from_dict d = .ok ev := by
  cases hc : checkRedactedEvent d with
  | false =>
    obtain ⟨b, hbad⟩ := badEvent_from_dict_isOk h
    refine ⟨Event.badEvent b, ?_⟩
    simp [RedactedEvent.from_dict, validate_json_fail hc, hbad]
  | true =>
    have hb := h
    unfold baseFields at hb
    simp only [Bool.and_eq_true] at hb
    obtain ⟨⟨⟨h1, h2⟩, h3⟩, h4⟩ := hb
    obtain ⟨e, he⟩ := isStrVal_iff.mp h1
    obtain ⟨s, hs⟩ := isStrVal_iff.mp h2
    obtain ⟨t, ht⟩ := isNumVal_iff.mp h3
    obtain ⟨ty, hty⟩ := isStrVal_iff.mp h4
    have hm := hc
    unfold checkRedactedEvent at hm
    simp only [Bool.and_eq_true] at hm
    obtain ⟨_, hmm⟩ := hm
    cases hu : d.lookup? "unsigned" with
    | none => rw [hu] at hmm; simp at hmm
    | some u =>
      rw [hu] at hmm
      simp only [Option.elim_some] at hmm
      cases hrb : u.lookup? "redacted_because" with
      | none => rw [hrb] at hmm; simp at hmm
      | some rb =>
        rw [hrb] at hmm
        simp only [Option.elim_some, Bool.and_eq_true] at hmm
        obtain ⟨hsend, hcont⟩ := hmm
        obtain ⟨rs, hrs⟩ := isStrVal_iff.mp hsend
        obtain ⟨ckvs, hck⟩ := isObjVal_iff.mp hcont
        refine ⟨Event.redactedEvent (.str e) (.str s) (.num t) (.str ty) (.str rs)
          (if (Json.obj ckvs).hasKey "reason" then (Json.obj ckvs).lookup? "reason"
            else none), ?_⟩
        simp [RedactedEvent.from_dict, validate_json_pass hc,
          Json.getItem_eq_ok hu, Json.getItem_eq_ok hrb,
          Json.getItem_eq_ok hrs, Json.getItem_eq_ok hck,
          Json.getItem_eq_ok he, Json.getItem_eq_ok hs,
          Json.getItem_eq_ok ht, Json.getItem_eq_ok hty]

/-- `RoomMessageText.from_dict` never raises once the base fields are
present. -/
theorem roomMessageText_from_dict_isOk {d : Json} (h : baseFields d = true) :
    ∃ ev, RoomMessageText.from_dict d = .ok ev := by
  cases hc : checkRoomMessageText d with
  | false =>
    obtain ⟨b, hbad⟩ := badEvent_from_dict_isOk h
    refine ⟨Event.badEvent b, ?_⟩
    simp [RoomMessageText.from_dict, validate_json_fail hc, hbad]
  | true =>
    have hb := h
    unfold baseFields at hb
    simp only [Bool.and_eq_true] at hb
    obtain ⟨⟨⟨h1, h2⟩, h3⟩, h4⟩ := hb
    obtain ⟨e, he⟩ := isStrVal_iff.mp h1
    obtain ⟨s, hs⟩ := isStrVal_iff.mp h2
    obtain ⟨t, ht⟩ := isNumVal_iff.mp h3
    have hm := hc
    unfold checkRoomMessageText at hm
    simp only [Bool.and_eq_true] at hm
    obtain ⟨_, hmm⟩ := hm
    cases hco : d.lookup? "content" with
    | none => rw [hco] at hmm; simp at hmm
    | some c =>
      rw [hco] at hmm
      simp only [Option.elim_some, Bool.and_eq_true] at hmm
      obtain ⟨_, hbody⟩ := hmm
      obtain ⟨bs, hbs⟩ := isStrVal_iff.mp hbody
      refine ⟨Event.roomMessageText (.str e) (.str s) (.num t) (.str bs)
        (if c.hasKey "formatted_body" then c.lookup? "formatted_body" else none)
        (if c.hasKey "format" then c.lookup? "format" else none), ?_⟩
      simp [RoomMessageText.from_dict, validate_json_pass hc,
        Json.getItem_eq_ok hco, Json.getItem_eq_ok hbs,
        Json.getItem_eq_ok he, Json.getItem_eq_ok hs, Json.getItem_eq_ok ht]

/-- `RoomMessage.from_dict` never raises once the base fields are
present. -/
theorem roomMessage_from_dict_isOk {d : Json} (h : baseFields d = true)
    (olm : Option Unit) : ∃ o, RoomMessage.from_dict d olm = .ok o := by
  cases hc : checkRoomMessage d with
  | false =>
    obtain ⟨b, hbad⟩ := badEvent_from_dict_isOk h
    refine ⟨some (Event.badEvent b), ?_⟩
    simp [RoomMessage.from_dict, validate_json_fail hc, hbad]
  | true =>
    have hm := hc
    unfold checkRoomMessage at hm
    simp only [Bool.and_eq_true] at hm
    obtain ⟨_, hmm⟩ := hm
    cases hco : d.lookup? "content" with
    | none => rw [hco] at hmm; simp at hmm
    | some c =>
      rw [hco] at hmm
      simp only [Option.elim_some] at hmm
      obtain ⟨mt, hmt⟩ := isStrVal_iff.mp hmm
      by_cases hx : (Json.str mt) = Json.str "m.text"
      · obtain ⟨ev, hev⟩ := roomMessageText_from_dict_isOk h
        refine ⟨some ev, ?_⟩
        simp [RoomMessage.from_dict, validate_json_pass hc,
          Json.getItem_eq_ok hco, Json.getItem_eq_ok hmt, hx, hev]
      · refine ⟨none, ?_⟩
        simp [RoomMessage.from_dict, validate_json_pass hc,
          Json.getItem_eq_ok hco, Json.getItem_eq_ok hmt, hx]

/-- The decoding body never raises once the generic room-event schema has
validated. -/
theorem SyncRepsponse.decode_event_dict_isOk {d : Json}
    (h : checkRoomEvent d = true) (olm : Option Unit) :
    ∃ l, SyncRepsponse.decode_event_dict d olm = .ok l := by
  have hbase := checkRoomEvent_base h
  cases hr : hasRedactedBecause d with
  | true =>
    obtain ⟨ev, hev⟩ := redactedEvent_from_dict_isOk hbase
    refine ⟨[some ev], ?_⟩
    simp [SyncRepsponse.decode_event_dict, validate_json_pass h, hr, hev]
  | false =>
    have hb := hbase
    unfold baseFields at hb
    simp only [Bool.and_eq_true] at hb
    obtain ⟨⟨⟨_, _⟩, _⟩, h4⟩ := hb
    obtain ⟨ty, hty⟩ := isStrVal_iff.mp h4
    by_cases hx : (Json.str ty) = Json.str "m.room.message"
    · obtain ⟨o, ho⟩ := roomMessage_from_dict_isOk hbase olm
      refine ⟨[o], ?_⟩
      simp [SyncRepsponse.decode_event_dict, validate_json_pass h, hr,
        Json.getItem_eq_ok hty, hx, ho]
    · refine ⟨[], ?_⟩
      simp [SyncRepsponse.decode_event_dict, validate_json_pass h, hr,
        Json.getItem_eq_ok hty, hx]

/-- When the generic room-event schema fails, the decoding body raises
exactly the validation error the loop handler absorbs. -/
theorem SyncRepsponse.decode_event_dict_fail {d : Json}
    (h : checkRoomEvent d = false) (olm : Option Unit) :
    SyncRepsponse.decode_event_dict d olm = .error .validationError := by
  simp [SyncRepsponse.decode_event_dict, validate_json_fail h]

/-- One loop iteration of `_get_room_events` never raises. -/
theorem SyncRepsponse.event_step_isOk (d : Json) (olm : Option Unit) :
    ∃ l, SyncRepsponse.event_step d olm = .ok l := by
  cases hc : checkRoomEvent d with
  | false =>
    refine ⟨[], ?_⟩
    simp [SyncRepsponse.event_step, SyncRepsponse.decode_event_dict_fail hc,
      tryValidation]
  | true =>
    obtain ⟨l, hl⟩ := SyncRepsponse.decode_event_dict_isOk hc olm
    refine ⟨l, ?_⟩
    simp [SyncRepsponse.event_step, hl, tryValidation]

/-- The whole `_get_room_events` loop never raises. -/
theorem SyncRepsponse.events_loop_isOk (olm : Option Unit) (xs : List Json) :
    ∃ l, SyncRepsponse.events_loop olm xs = .ok l := by
  induction xs with
  | nil => exact ⟨[], rfl⟩
  | cons d rest ih =>
    obtain ⟨l1, h1⟩ := SyncRepsponse.event_step_isOk d olm
    obtain ⟨l2, h2⟩ := ih
    exact ⟨l1 ++ l2, by simp [SyncRepsponse.events_loop, h1, h2]⟩

/-- `_get_room_events` never raises on an event array. -/
theorem SyncRepsponse.get_room_events_isOk (xs : List Json) (m : Int)
    (olm : Option Unit) :
    ∃ l, SyncRepsponse.get_room_events (.arr xs) m olm = .ok l := by
  obtain ⟨l, hl⟩ := SyncRepsponse.events_loop_isOk olm xs
  exact ⟨l, by simp [SyncRepsponse.get_room_events, Json.iterList, hl]⟩

/-- `_get_timeline` raises exactly a validation error when the timeline
container is malformed. -/
theorem SyncRepsponse.get_timeline_fail {t : Json}
    (h : checkRoomTimeline t = false) (m : Int) (olm : Option Unit) :
    SyncRepsponse.get_timeline t m olm = .error .validationError := by
  simp [SyncRepsponse.get_timeline, validate_json_fail h]

/-- `_get_timeline` succeeds when the timeline container validates. -/
theorem SyncRepsponse.get_timeline_isOk {t : Json}
    (h : checkRoomTimeline t = true) (m : Int) (olm : Option Unit) :
    ∃ tl, SyncRepsponse.get_timeline t m olm = .ok tl := by
  have hm := h
  unfold checkRoomTimeline at hm
  simp only [Bool.and_eq_true] at hm
  obtain ⟨⟨hev, hlim⟩, hprev⟩ := hm
  obtain ⟨xs, hxs⟩ := isArrVal_iff.mp hev
  obtain ⟨lb, hlb⟩ := isBoolVal_iff.mp hlim
  obtain ⟨pb, hpb⟩ := isStrVal_iff.mp hprev
  obtain ⟨l, hl⟩ := SyncRepsponse.get_room_events_isOk xs m olm
  refine ⟨⟨l, .bool lb, .str pb⟩, ?_⟩
  simp [SyncRepsponse.get_timeline, validate_json_pass h,
    Json.getItem_eq_ok hxs, Json.getItem_eq_ok hlb, Json.getItem_eq_ok hpb, hl]

/-- The joined-rooms loop either succeeds or surfaces a validation error
(provided every room carries a `timeline` key, as the sync schema
guarantees). -/
theorem SyncRepsponse.rooms_loop_cases (entries : List (String × Json))
    (h : ∀ p ∈ entries, p.2.hasKey "timeline" = true) :
    (∃ l, SyncRepsponse.rooms_loop entries = .ok l) ∨
      SyncRepsponse.rooms_loop entries = .error .validationError := by
  induction entries with
  | nil => exact .inl ⟨[], rfl⟩
  | cons p rest ih =>
    obtain ⟨rid, rd⟩ := p
    have hk : rd.hasKey "timeline" = true := h ⟨rid, rd⟩ (by simp)
    unfold Json.hasKey at hk
    rw [Option.isSome_iff_exists] at hk
    obtain ⟨tl, htl⟩ := hk
    cases hct : checkRoomTimeline tl with
    | false =>
      refine .inr ?_
      simp [SyncRepsponse.rooms_loop, Json.getItem_eq_ok htl,
        SyncRepsponse.get_timeline_fail hct]
    | true =>
      obtain ⟨tln, htln⟩ := SyncRepsponse.get_timeline_isOk hct 0 none
      rcases ih (fun q hq => h q (by simp [hq])) with ⟨l, hl⟩ | hfail
      · refine .inl ⟨(rid, ⟨tln, []⟩) :: l, ?_⟩
        simp [SyncRepsponse.rooms_loop, Json.getItem_eq_ok htl, htln, hl]
      · refine .inr ?_
        simp [SyncRepsponse.rooms_loop, Json.getItem_eq_ok htl, htln, hfail]

theorem Json.hasKey_iff {d : Json} {k : String} :
    d.hasKey k = true ↔ ∃ v, d.lookup? k = some v := by
  simp [Json.hasKey, Option.isSome_iff_exists]

theorem objEntries?_eq_some {o : Option Json} {kvs : List (String × Json)}
    (h : objEntries? o = some kvs) : o = some (.obj kvs) := by
  cases o with
  | none => simp [objEntries?] at h
  | some j =>
    cases j with
    | obj kvs2 => simp [objEntries?] at h; rw [h]
    | null => simp [objEntries?] at h
    | bool b => simp [objEntries?] at h
    | num n => simp [objEntries?] at h
    | str s => simp [objEntries?] at h
    | arr xs => simp [objEntries?] at h

/-- An event failing the generic room-event schema contributes nothing:
its validation error is absorbed by the loop handler. -/
theorem SyncRepsponse.event_step_drop {d : Json}
    (h : checkRoomEvent d = false) (olm : Option Unit) :
    SyncRepsponse.event_step d olm = .ok [] := by
  simp [SyncRepsponse.event_step, SyncRepsponse.decode_event_dict_fail h,
    tryValidation]

/-- Precise output of `RedactedEvent.from_dict` on a payload passing the
redacted-event schema. -/
theorem RedactedEvent.from_dict_eq {d u rb : Json} {eid snd ts ty redacter rbc : Json}
    (hchk : checkRedactedEvent d = true)
    (he : d.lookup? "event_id" = some eid) (hs : d.lookup? "sender" = some snd)
    (ht : d.lookup? "origin_server_ts" = some ts) (hty : d.lookup? "type" = some ty)
    (hu : d.lookup? "unsigned" = some u) (hrb : u.lookup? "redacted_because" = some rb)
    (hsend : rb.lookup? "sender" = some redacter)
    (hcont : rb.lookup? "content" = some rbc) :
    RedactedEvent.from_dict d = .ok (.redactedEvent eid snd ts ty redacter
      (if rbc.hasKey "reason" then rbc.lookup? "reason" else none)) := by
  simp [RedactedEvent.from_dict, validate_json_pass hchk,
    Json.getItem_eq_ok he, Json.getItem_eq_ok hs, Json.getItem_eq_ok ht,
    Json.getItem_eq_ok hty, Json.getItem_eq_ok hu, Json.getItem_eq_ok hrb,
    Json.getItem_eq_ok hsend, Json.getItem_eq_ok hcont]

/-- A joined room whose timeline container fails the room-timeline schema
makes the whole joined-rooms loop raise the validation error (provided
every room has its `timeline` key, as the sync schema guarantees). -/
theorem SyncRepsponse.rooms_loop_fail (entries : List (String × Json))
    (hall : ∀ p ∈ entries, p.2.hasKey "timeline" = true)
    (hbad : ∃ rid rd tl, (rid, rd) ∈ entries ∧ rd.lookup? "timeline" = some tl ∧
      checkRoomTimeline tl = false) :
    SyncRepsponse.rooms_loop entries = .error .validationError := by
  induction entries with
  | nil =>
    obtain ⟨_, _, _, hmem, _, _⟩ := hbad
    exact absurd hmem (List.not_mem_nil _)
  | cons p rest ih =>
    obtain ⟨rid0, rd0⟩ := p
    have hk : rd0.hasKey "timeline" = true := hall ⟨rid0, rd0⟩ (by simp)
    obtain ⟨tl0, htl0⟩ := Json.hasKey_iff.mp hk
    cases hct : checkRoomTimeline tl0 with
    | false =>
      simp [SyncRepsponse.rooms_loop, Json.getItem_eq_ok htl0,
        SyncRepsponse.get_timeline_fail hct]
    | true =>
      obtain ⟨tln, htln⟩ := SyncRepsponse.get_timeline_isOk hct 0 none
      have hrest : ∃ rid rd tl, (rid, rd) ∈ rest ∧ rd.lookup? "timeline" = some tl ∧
          checkRoomTimeline tl = false := by
        obtain ⟨rid, rd, tl, hmem, htl, hchk⟩ := hbad
        rcases List.mem_cons.mp hmem with hhead | htail
        · exfalso
          have hrd : rd = rd0 := congrArg Prod.snd hhead
          rw [hrd, htl0] at htl
          have htt : tl0 = tl := by injection htl
          rw [← htt, hct] at hchk
          exact Bool.noConfusion hchk
        · exact ⟨rid, rd, tl, htail, htl, hchk⟩
      have hfail := ih (fun q hq => hall q (by simp [hq])) hrest
      simp [SyncRepsponse.rooms_loop, Json.getItem_eq_ok htl0, htln, hfail]

/-- `_get_room_info` either succeeds or raises exactly a validation
error, once the sync schema has validated the payload it runs on. -/
theorem SyncRepsponse.get_room_info_cases {rooms : Json}
    {joinKvs : List (String × Json)}
    (hj : rooms.lookup? "join" = some (.obj joinKvs))
    (hall : joinKvs.all (fun kv => kv.2.hasKey "timeline") = true)
    (m : Int) (olm : Option Unit) :
    (∃ ri, SyncRepsponse.get_room_info rooms m olm = .ok ri) ∨
      SyncRepsponse.get_room_info rooms m olm = .error .validationError := by
  have hallm : ∀ p ∈ joinKvs, p.2.hasKey "timeline" = true := by
    intro p hp
    exact List.all_eq_true.mp hall p hp
  rcases SyncRepsponse.rooms_loop_cases joinKvs hallm with ⟨l, hl⟩ | hfail
  · exact .inl ⟨⟨[], l, []⟩, by
      simp [SyncRepsponse.get_room_info, Json.getItem_eq_ok hj, Json.items, hl]⟩
  · exact .inr (by
      simp [SyncRepsponse.get_room_info, Json.getItem_eq_ok hj, Json.items, hfail])

/-- `ErrorResponse.from_dict` always produces an `ErrorResponse`. -/
theorem errorResponse_from_dict_isOk (d : Json) :
    ∃ r, ErrorResponse.from_dict d = .ok r := by
  cases hc : checkError d with
  | false =>
    exact ⟨⟨.str "Unknown error", .str ""⟩,
      by simp [ErrorResponse.from_dict, validate_json_fail hc]⟩
  | true =>
    have hm := hc
    unfold checkError at hm
    simp only [Bool.and_eq_true] at hm
    obtain ⟨h1, h2⟩ := hm
    obtain ⟨msg, hmsg⟩ := isStrVal_iff.mp h1
    obtain ⟨code, hcode⟩ := isStrVal_iff.mp h2
    exact ⟨⟨.str msg, .str code⟩,
      by simp [ErrorResponse.from_dict, validate_json_pass hc,
        Json.getItem_eq_ok hmsg, Json.getItem_eq_ok hcode]⟩

/-- `_get_room_info` surfaces the validation error of a malformed
timeline container. -/
theorem SyncRepsponse.get_room_info_fail {rooms : Json}
    {joinKvs : List (String × Json)}
    (hj : rooms.lookup? "join" = some (.obj joinKvs))
    (hall : joinKvs.all (fun kv => kv.2.hasKey "timeline") = true)
    (hbad : ∃ rid rd tl, (rid, rd) ∈ joinKvs ∧ rd.lookup? "timeline" = some tl ∧
      checkRoomTimeline tl = false)
    (m : Int) (olm : Option Unit) :
    SyncRepsponse.get_room_info rooms m olm = .error .validationError := by
  have hallm : ∀ p ∈ joinKvs, p.2.hasKey "timeline" = true :=
    fun p hp => List.all_eq_true.mp hall p hp
  have hfail := SyncRepsponse.rooms_loop_fail joinKvs hallm hbad
  simp [SyncRepsponse.get_room_info, Json.getItem_eq_ok hj, Json.items, hfail]

/-- From a validated sync payload, extract the `rooms`/`join` spine. -/
theorem checkSync_spine {d : Json} (hc : checkSync d = true) :
    ∃ nb rooms joinKvs, d.lookup? "next_batch" = some (.str nb) ∧
      d.lookup? "rooms" = some rooms ∧
      rooms.lookup? "join" = some (.obj joinKvs) ∧
      joinKvs.all (fun kv => kv.2.hasKey "timeline") = true := by
  have hm := hc
  unfold checkSync at hm
  simp only [Bool.and_eq_true] at hm
  obtain ⟨hnb, hrooms⟩ := hm
  obtain ⟨nb, hnbv⟩ := isStrVal_iff.mp hnb
  cases hro : d.lookup? "rooms" with
  | none => rw [hro] at hrooms; simp at hrooms
  | some rooms =>
    rw [hro] at hrooms
    simp only [Option.elim_some] at hrooms
    cases hoe : objEntries? (rooms.lookup? "join") with
    | none => rw [hoe] at hrooms; simp at hrooms
    | some joinKvs =>
      rw [hoe] at hrooms
      simp only [Option.elim_some] at hrooms
      exact ⟨nb, rooms, joinKvs, hnbv, rfl, objEntries?_eq_some hoe, hrooms⟩

/-- `SyncRepsponse.from_dict` always returns a response object. -/
theorem SyncRepsponse.from_dict_total (d : Json) (m : Int) (olm : Option Unit) :
    ∃ r, SyncRepsponse.from_dict d m olm = .ok r := by
  cases hc : checkSync d with
  | false =>
    obtain ⟨er, her⟩ := errorResponse_from_dict_isOk d
    refine ⟨.errorResponse er, ?_⟩
    simp [SyncRepsponse.from_dict, validate_json_fail hc, her]
  | true =>
    obtain ⟨nb, rooms, joinKvs, hnbv, hro, hj, hall⟩ := checkSync_spine hc
    rcases SyncRepsponse.get_room_info_cases hj hall m olm with ⟨ri, hri⟩ | hfail
    · refine ⟨.syncResponse (.str nb) ri false, ?_⟩
      simp [SyncRepsponse.from_dict, validate_json_pass hc,
        Json.getItem_eq_ok hro, hri, Json.getItem_eq_ok hnbv]
    · obtain ⟨er, her⟩ := errorResponse_from_dict_isOk d
      refine ⟨.errorResponse er, ?_⟩
      simp [SyncRepsponse.from_dict, validate_json_pass hc,
        Json.getItem_eq_ok hro, hfail, her]

/-! ### Claims -/

/-- Claim C1, counterexample: a timeline of `N = 2` decodable events plus
one event failing the generic room-event schema decodes to exactly the 2
events — not to `N + 1 = 3` results, and no `BadEvent` appears; the
malformed event is silently dropped by the `except ... pass` handler. -/
theorem C1_counterexample :
    SyncRepsponse.get_room_events
        (.arr [textEventDict, noSenderEventDict, textEventDict2]) 0 none =
      .ok [some (.roomMessageText (.str "$1") (.str "@a:x") (.num 100)
              (.str "hi") none none),
           some (.roomMessageText (.str "$2") (.str "@b:x") (.num 200)
              (.str "yo") none none)] ∧
    (SyncRepsponse.get_room_events
        (.arr [textEventDict, noSenderEventDict, textEventDict2]) 0 none).map
      List.length = .ok 2 ∧ (2 : Nat) ≠ 2 + 1 :=
  ⟨rfl, rfl, by decide⟩

/-- Claim C1, amended: an event failing the generic room-event schema is
silently dropped by `_get_room_events` — no `BadEvent` is emitted for it
— and it never removes or alters any other event of the same timeline:
the output equals the output for the timeline without that event, in the
original server-assigned order. -/
theorem C1_malformed_event_dropped (xs ys : List Json) (d : Json) (m : Int)
    (olm : Option Unit) (h : checkRoomEvent d = false) :
    SyncRepsponse.get_room_events (.arr (xs ++ d :: ys)) m olm =
      SyncRepsponse.get_room_events (.arr (xs ++ ys)) m olm := by
  simp only [SyncRepsponse.get_room_events, Json.iterList, exc_bind_ok]
  induction xs with
  | nil =>
    obtain ⟨ly, hy⟩ := SyncRepsponse.events_loop_isOk olm ys
    simp [SyncRepsponse.events_loop, SyncRepsponse.event_step_drop h olm, hy]
  | cons x rest ih =>
    obtain ⟨l1, h1⟩ := SyncRepsponse.event_step_isOk x olm
    simp [SyncRepsponse.events_loop, h1, ih]

/-- Claim C1, witness: the amended theorem applied to the concrete
three-event timeline. -/
theorem C1_witness :
    checkRoomEvent noSenderEventDict = false ∧
    SyncRepsponse.get_room_events
        (.arr [textEventDict, noSenderEventDict, textEventDict2]) 0 none =
      SyncRepsponse.get_room_events (.arr [textEventDict, textEventDict2]) 0 none :=
  ⟨by decide, C1_malformed_event_dropped [textEventDict] [textEventDict2]
    noSenderEventDict 0 none (by decide)⟩

/-- Claim C2: for every payload, `SyncRepsponse.from_dict` returns a
response — a `SyncRepsponse` or an `ErrorResponse` — and never lets an
exception escape its boundary. -/
theorem C2_sync_from_dict_never_raises (d : Json) (m : Int) (olm : Option Unit) :
    ∃ r, SyncRepsponse.from_dict d m olm = .ok r ∧
      ((∃ nb rooms pf, r = .syncResponse nb rooms pf) ∨
        ∃ er, r = .errorResponse er) := by
  obtain ⟨r, hr⟩ := SyncRepsponse.from_dict_total d m olm
  refine ⟨r, hr, ?_⟩
  cases r with
  | syncResponse nb rooms pf => exact .inl ⟨nb, rooms, pf, rfl⟩
  | errorResponse er => exact .inr ⟨er, rfl⟩

/-- Claim C3, code evaluated at the failing input: a well-formed
`m.room.message` payload with `content.msgtype = "m.notice"` makes
`RoomMessage.from_dict` return Python `None`, and `_get_room_events`
appends that `None` to the timeline — the decoded list has the same
length as the input event array (1, not 0), with a `None` entry in it. -/
theorem C3_notice_appends_none :
    RoomMessage.from_dict noticeEventDict none = .ok none ∧
    SyncRepsponse.get_room_events (.arr [noticeEventDict]) 0 none = .ok [none] ∧
    (SyncRepsponse.get_room_events (.arr [noticeEventDict]) 0 none).map
      List.length = .ok 1 :=
  ⟨rfl, rfl, rfl⟩

/-- Claim C4: decoding a payload that passes the text-message schema and
whose content lacks `formatted_body` and `format` yields a
`RoomMessageText` carrying the content's `body` with `formatted_body` and
`format` both `None`. -/
theorem C4_text_message_defaults (d c : Json)
    (hc : checkRoomMessageText d = true)
    (hco : d.lookup? "content" = some c)
    (hfb : c.hasKey "formatted_body" = false)
    (hfm : c.hasKey "format" = false) :
    ∃ eid snd ts body,
      d.lookup? "event_id" = some eid ∧ d.lookup? "sender" = some snd ∧
      d.lookup? "origin_server_ts" = some ts ∧ c.lookup? "body" = some body ∧
      RoomMessageText.from_dict d = .ok (.roomMessageText eid snd ts body none none) := by
  have hbase := checkRoomMessageText_base hc
  unfold baseFields at hbase
  simp only [Bool.and_eq_true] at hbase
  obtain ⟨⟨⟨h1, h2⟩, h3⟩, _⟩ := hbase
  obtain ⟨e, he⟩ := isStrVal_iff.mp h1
  obtain ⟨s, hs⟩ := isStrVal_iff.mp h2
  obtain ⟨t, ht⟩ := isNumVal_iff.mp h3
  have hm := hc
  unfold checkRoomMessageText at hm
  simp only [Bool.and_eq_true] at hm
  obtain ⟨_, hmm⟩ := hm
  rw [hco] at hmm
  simp only [Option.elim_some, Bool.and_eq_true] at hmm
  obtain ⟨_, hbody⟩ := hmm
  obtain ⟨bs, hbs⟩ := isStrVal_iff.mp hbody
  refine ⟨_, _, _, _, he, hs, ht, hbs, ?_⟩
  simp [RoomMessageText.from_dict, validate_json_pass hc,
    Json.getItem_eq_ok hco, Json.getItem_eq_ok hbs, hfb, hfm,
    Json.getItem_eq_ok he, Json.getItem_eq_ok hs, Json.getItem_eq_ok ht]

/-- Claim C4, witness: the spec's concrete text-message payload decodes
to `RoomMessageText` with `body="hi"`, `formatted_body=None`,
`format=None`. -/
theorem C4_witness :
    ∃ eid snd ts body,
      textEventDict.lookup? "event_id" = some eid ∧
      textEventDict.lookup? "sender" = some snd ∧
      textEventDict.lookup? "origin_server_ts" = some ts ∧
      (Json.obj [("msgtype", .str "m.text"), ("body", .str "hi")]).lookup? "body"
        = some body ∧
      RoomMessageText.from_dict textEventDict =
        .ok (.roomMessageText eid snd ts body none none) :=
  C4_text_message_defaults textEventDict
    (Json.obj [("msgtype", .str "m.text"), ("body", .str "hi")])
    (by decide) rfl rfl rfl

/-- Claim C5, counterexample: a payload missing `sender` fails the
generic room-event schema and is dropped with no `BadEvent` in the
output; `BadEvent.from_dict` itself would raise `KeyError` on it. -/
theorem C5_counterexample :
    checkRoomEvent noSenderEventDict = false ∧
    SyncRepsponse.get_room_events (.arr [noSenderEventDict]) 0 none = .ok [] ∧
    BadEvent.from_dict noSenderEventDict = .error .keyError :=
  ⟨by decide, rfl, rfl⟩

/-- Claim C5, amended: decoding a payload missing `sender` yields no
event at all: `_get_room_events` drops it (it fails the generic
room-event schema) and emits no `BadEvent` for it. -/
theorem C5_missing_sender_dropped (d : Json) (m : Int) (olm : Option Unit)
    (h : d.lookup? "sender" = none) :
    SyncRepsponse.get_room_events (.arr [d]) m olm = .ok [] := by
  have hc : checkRoomEvent d = false := by
    unfold checkRoomEvent
    rw [h]
    simp [isStrVal]
  simp [SyncRepsponse.get_room_events, Json.iterList, SyncRepsponse.events_loop,
    SyncRepsponse.event_step_drop hc olm]

/-- Claim C5, witness: the amended theorem applied to the concrete
payload missing `sender`. -/
theorem C5_witness :
    noSenderEventDict.lookup? "sender" = none ∧
    SyncRepsponse.get_room_events (.arr [noSenderEventDict]) 5 none = .ok [] :=
  ⟨rfl, C5_missing_sender_dropped noSenderEventDict 5 none rfl⟩

/-- Claim C6: a malformed `rooms` container (sync schema failure, e.g. a
missing `join` key) or a malformed timeline container inside a joined
room degrades the entire `SyncRepsponse.from_dict` call to an
`ErrorResponse`. -/
theorem C6_container_failure_degrades (d : Json) (m : Int) (olm : Option Unit)
    (h : checkSync d = false ∨
      ∃ rooms joinKvs rid rd tl,
        d.lookup? "rooms" = some rooms ∧
        rooms.lookup? "join" = some (.obj joinKvs) ∧
        (rid, rd) ∈ joinKvs ∧ rd.lookup? "timeline" = some tl ∧
        checkRoomTimeline tl = false) :
    ∃ er, SyncRepsponse.from_dict d m olm = .ok (.errorResponse er) := by
  rcases h with hc | ⟨rooms, joinKvs, rid, rd, tl, hro, hj, hmem, htl, hct⟩
  · obtain ⟨er, her⟩ := errorResponse_from_dict_isOk d
    exact ⟨er, by simp [SyncRepsponse.from_dict, validate_json_fail hc, her]⟩
  · cases hcs : checkSync d with
    | false =>
      obtain ⟨er, her⟩ := errorResponse_from_dict_isOk d
      exact ⟨er, by simp [SyncRepsponse.from_dict, validate_json_fail hcs, her]⟩
    | true =>
      obtain ⟨nb, rooms2, joinKvs2, hnbv, hro2, hj2, hall⟩ := checkSync_spine hcs
      rw [hro] at hro2
      injection hro2 with hre
      subst hre
      rw [hj] at hj2
      injection hj2 with hj3
      injection hj3 with hj4
      subst hj4
      have hfail := SyncRepsponse.get_room_info_fail hj hall
        ⟨rid, rd, tl, hmem, htl, hct⟩ m olm
      obtain ⟨er, her⟩ := errorResponse_from_dict_isOk d
      exact ⟨er, by simp [SyncRepsponse.from_dict, validate_json_pass hcs,
        Json.getItem_eq_ok hro, hfail, her]⟩

/-- Claim C6, witness: a sync payload whose `rooms` container lacks the
`join` key degrades to an `ErrorResponse`. -/
theorem C6_witness :
    ∃ er, SyncRepsponse.from_dict noJoinSyncDict 0 none = .ok (.errorResponse er) :=
  C6_container_failure_degrades noJoinSyncDict 0 none (.inl (by decide))

/-- Claim C7: every to-device message renders to exactly the single-key
envelope `{"messages": {recipient: {recipient_device: content}}}`; for
`RoomKeyRequestMessage` the protocol-specific fields never appear in the
rendered envelope, whatever their values. -/
theorem C7_envelope_exact :
    (∀ m : ToDeviceMessage, m.as_dict =
      .obj [("messages", .obj [(m.recipient, .obj [(m.recipient_device, m.content)])])]) ∧
    (∀ m : DummyMessage, m.as_dict =
      .obj [("messages", .obj [(m.recipient, .obj [(m.recipient_device, m.content)])])]) ∧
    (∀ (base : ToDeviceMessage) (request_id session_id room_id algorithm : String),
      (RoomKeyRequestMessage.mk base request_id session_id room_id algorithm).as_dict =
        .obj [("messages",
          .obj [(base.recipient, .obj [(base.recipient_device, base.content)])])]) :=
  ⟨fun _ => rfl, fun _ => rfl, fun _ _ _ _ _ => rfl⟩

/-- Claim C8: `ErrorResponse.from_dict` always produces an
`ErrorResponse`: the payload's `error`/`errcode` when the error schema
validates, the `("Unknown error", "")` placeholder otherwise. -/
theorem C8_error_from_dict_shape (d : Json) :
    (checkError d = true →
      ∃ msg code, d.lookup? "error" = some msg ∧ d.lookup? "errcode" = some code ∧
        ErrorResponse.from_dict d = .ok ⟨msg, code⟩) ∧
    (checkError d = false →
      ErrorResponse.from_dict d = .ok ⟨.str "Unknown error", .str ""⟩) := by
  constructor
  · intro hc
    have hm := hc
    unfold checkError at hm
    simp only [Bool.and_eq_true] at hm
    obtain ⟨h1, h2⟩ := hm
    obtain ⟨msg, hmsg⟩ := isStrVal_iff.mp h1
    obtain ⟨code, hcode⟩ := isStrVal_iff.mp h2
    exact ⟨_, _, hmsg, hcode, by
      simp [ErrorResponse.from_dict, validate_json_pass hc,
        Json.getItem_eq_ok hmsg, Json.getItem_eq_ok hcode]⟩
  · intro hc
    simp [ErrorResponse.from_dict, validate_json_fail hc]

/-- Claim C8, witness: both branches at concrete payloads. -/
theorem C8_witness :
    (∃ msg code, knownErrorDict.lookup? "error" = some msg ∧
      knownErrorDict.lookup? "errcode" = some code ∧
      ErrorResponse.from_dict knownErrorDict = .ok ⟨msg, code⟩) ∧
    ErrorResponse.from_dict unknownErrorDict = .ok ⟨.str "Unknown error", .str ""⟩ :=
  ⟨(C8_error_from_dict_shape knownErrorDict).1 (by decide),
   (C8_error_from_dict_shape unknownErrorDict).2 (by decide)⟩

/-- Claim C9: an event passing the generic room-event schema and carrying
`unsigned.redacted_because` is decoded by the redaction path (whatever
its `type`, so the check precedes type dispatch): a `RedactedEvent` with
`redacter` from `unsigned.redacted_because.sender` and optional `reason`
from `unsigned.redacted_because.content.reason` when the redacted-event
schema validates, a `BadEvent` otherwise. -/
theorem C9_redaction_precedes_type_dispatch (d : Json) (mx : Int)
    (olm : Option Unit) (h : checkRoomEvent d = true)
    (hr : hasRedactedBecause d = true) :
    (checkRedactedEvent d = true →
      ∃ eid snd ts ty u rb redacter rbc,
        d.lookup? "event_id" = some eid ∧ d.lookup? "sender" = some snd ∧
        d.lookup? "origin_server_ts" = some ts ∧ d.lookup? "type" = some ty ∧
        d.lookup? "unsigned" = some u ∧ u.lookup? "redacted_because" = some rb ∧
        rb.lookup? "sender" = some redacter ∧ rb.lookup? "content" = some rbc ∧
        SyncRepsponse.get_room_events (.arr [d]) mx olm =
          .ok [some (.redactedEvent eid snd ts ty redacter
            (if rbc.hasKey "reason" then rbc.lookup? "reason" else none))]) ∧
    (checkRedactedEvent d = false →
      ∃ b, SyncRepsponse.get_room_events (.arr [d]) mx olm =
        .ok [some (.badEvent b)]) := by
  have hbase := checkRoomEvent_base h
  have hb := hbase
  unfold baseFields at hb
  simp only [Bool.and_eq_true] at hb
  obtain ⟨⟨⟨h1, h2⟩, h3⟩, h4⟩ := hb
  obtain ⟨e, he⟩ := isStrVal_iff.mp h1
  obtain ⟨s, hs⟩ := isStrVal_iff.mp h2
  obtain ⟨t, ht⟩ := isNumVal_iff.mp h3
  obtain ⟨ty, hty⟩ := isStrVal_iff.mp h4
  constructor
  · intro hred
    have hm := hred
    unfold checkRedactedEvent at hm
    simp only [Bool.and_eq_true] at hm
    obtain ⟨_, hmm⟩ := hm
    cases hu : d.lookup? "unsigned" with
    | none => rw [hu] at hmm; simp at hmm
    | some u =>
      rw [hu] at hmm
      simp only [Option.elim_some] at hmm
      cases hrb : u.lookup? "redacted_because" with
      | none => rw [hrb] at hmm; simp at hmm
      | some rb =>
        rw [hrb] at hmm
        simp only [Option.elim_some, Bool.and_eq_true] at hmm
        obtain ⟨hsend, hcont⟩ := hmm
        obtain ⟨rs, hrs⟩ := isStrVal_iff.mp hsend
        obtain ⟨ckvs, hck⟩ := isObjVal_iff.mp hcont
        have hfd := RedactedEvent.from_dict_eq hred he hs ht hty hu hrb hrs hck
        refine ⟨_, _, _, _, _, _, _, _, he, hs, ht, hty, rfl, hrb, hrs, hck, ?_⟩
        simp [SyncRepsponse.get_room_events, Json.iterList,
          SyncRepsponse.events_loop, SyncRepsponse.event_step, tryValidation,
          SyncRepsponse.decode_event_dict, validate_json_pass h, hr, hfd]
  · intro hred
    obtain ⟨e2, s2, t2, ty2, he2, hs2, ht2, hty2, hbad⟩ :=
      BadEvent.from_dict_ok hbase
    refine ⟨⟨e2, s2, t2, ty2, Api.to_json d⟩, ?_⟩
    simp [SyncRepsponse.get_room_events, Json.iterList,
      SyncRepsponse.events_loop, SyncRepsponse.event_step, tryValidation,
      SyncRepsponse.decode_event_dict, validate_json_pass h, hr,
      RedactedEvent.from_dict, validate_json_fail hred, hbad]

/-- Claim C9, witness: the theorem applied to the concrete redacted
event (first branch: the redacted-event schema validates). -/
theorem C9_witness :
    ∃ eid snd ts ty u rb redacter rbc,
      redactedEventDict.lookup? "event_id" = some eid ∧
      redactedEventDict.lookup? "sender" = some snd ∧
      redactedEventDict.lookup? "origin_server_ts" = some ts ∧
      redactedEventDict.lookup? "type" = some ty ∧
      redactedEventDict.lookup? "unsigned" = some u ∧
      u.lookup? "redacted_because" = some rb ∧
      rb.lookup? "sender" = some redacter ∧ rb.lookup? "content" = some rbc ∧
      SyncRepsponse.get_room_events (.arr [redactedEventDict]) 0 none =
        .ok [some (.redactedEvent eid snd ts ty redacter
          (if rbc.hasKey "reason" then rbc.lookup? "reason" else none))] :=
  (C9_redaction_precedes_type_dispatch redactedEventDict 0 none
    (by decide) (by decide)).1 (by decide)

/-- Claim C10: the `max_events` parameter is accepted by `from_dict`,
`_get_room_info`, `_get_timeline` and `_get_room_events` but never read:
any two values produce identical results. -/
theorem C10_max_events_has_no_effect :
    (∀ (d : Json) (m1 m2 : Int) (olm : Option Unit),
      SyncRepsponse.from_dict d m1 olm = SyncRepsponse.from_dict d m2 olm) ∧
    (∀ (d : Json) (m1 m2 : Int) (olm : Option Unit),
      SyncRepsponse.get_room_info d m1 olm = SyncRepsponse.get_room_info d m2 olm) ∧
    (∀ (t : Json) (m1 m2 : Int) (olm : Option Unit),
      SyncRepsponse.get_timeline t m1 olm = SyncRepsponse.get_timeline t m2 olm) ∧
    (∀ (e : Json) (m1 m2 : Int) (olm : Option Unit),
      SyncRepsponse.get_room_events e m1 olm = SyncRepsponse.get_room_events e m2 olm) :=
  ⟨fun _ _ _ _ => rfl, fun _ _ _ _ => rfl, fun _ _ _ _ => rfl, fun _ _ _ _ => rfl⟩

end Nio
